import Mathlib

/-!
Verification development for the status-aggregation core of the
project-orchestrator scripts (`scripts/check_status.py`).

The script discovers task-list files (`tasks/TASKS-*.md`) and PRD files
(`prds/PRD-*.md`) under a root state directory, extracts task records from
the task-list files with the multiline regular expression

  `- \[([ x])\] TASK-(\w+)-(\d+):\s*(.+?)(?:\s+\[(\w+)\])?$`

(compiled with `re.MULTILINE` and scanned with `finditer`), tallies the
records by status, computes a completion percentage, and renders a
human-readable report.

The embedding below models the regular-expression scan exactly, as a
determinised backtracking matcher over `List Char`:
* `\w+` followed by a literal `-` (and `\d+` followed by `:`) are
  deterministic: every proper prefix of a maximal word (digit) run is
  followed by a word (digit) character, so the only viable choice for the
  greedy quantifier is the full maximal run, which must then be followed
  by the literal;
* likewise `\s+` followed by `[` inside the optional trailing group;
* the remaining genuine backtracking — greedy `\s*` (longest first),
  lazy `(.+?)` (shortest first), and the optional group (presence tried
  before absence) — is carried out explicitly by `wsScan` and `descScan`;
* `$` under `re.MULTILINE` matches at the end of the input or just before
  a newline (`atLineEnd`), and `.` does not match a newline.

This determinised matcher was cross-validated against Python's `re`
module on 50000 randomised inputs with exact agreement.
-/

namespace CheckStatus

/-- Characters matched by Python's regex class `\s` (ASCII range). -/
def isPySpace (c : Char) : Bool :=
  c = ' ' || c = '\t' || c = '\n' || c = '\r' || c = '\x0b' || c = '\x0c'

/-- Characters matched by Python's regex class `\w` (ASCII range). -/
def isWordChar (c : Char) : Bool :=
  ('a' ≤ c && c ≤ 'z') || ('A' ≤ c && c ≤ 'Z') || ('0' ≤ c && c ≤ '9') || c = '_'

/-- Characters matched by Python's regex class `\d` (ASCII range). -/
def isDigitChar (c : Char) : Bool := '0' ≤ c && c ≤ '9'

/-- Python's `$` in MULTILINE mode: end of input, or just before a newline. -/
def atLineEnd : List Char → Bool
  | [] => true
  | c :: _ => c = '\n'

/-- One raw match of the task-line pattern: the five capture groups
`([ x])`, `(\w+)`, `(\d+)`, `(.+?)` and the optional `(\w+)` status tag. -/
structure RawMatch where
  checked : Bool
  prd : List Char
  num : List Char
  descRaw : List Char
  tag : Option (List Char)
deriving Repr, DecidableEq

/-- Attempt the tail group-with-anchor `(?:\s+\[(\w+)\])$` at `p`.
Deterministic: `\s+` must stop exactly at the maximal whitespace run
(every shorter choice is followed by whitespace, not `[`).  Returns the
tag and the remaining input (the zero-width `$` consumes nothing). -/
def tryGroup (p : List Char) : Option (List Char × List Char) :=
  let k := (p.takeWhile isPySpace).length
  if k = 0 then none
  else
    match p.drop k with
    | '[' :: q =>
      let w := q.takeWhile isWordChar
      if w.isEmpty then none
      else
        match q.dropWhile isWordChar with
        | ']' :: r => if atLineEnd r then some (w, r) else none
        | _ => none
    | _ => none

/-- The lazy description `(.+?)` followed by the optional status-tag group
and `$`: grow the description one (non-newline) character at a time; after
each character first try the trailing group (group presence is preferred),
then the bare `$`.  `remLine` is the rest of the current line, `R` the rest
of the input from the first newline on. -/
def descScan (taken : List Char) : List Char → List Char →
    Option (List Char × Option (List Char) × List Char)
  | [], _ => none
  | c :: rem, R =>
    let taken2 := taken ++ [c]
    let after := rem ++ R
    match tryGroup after with
    | some (tag, rest) => some (taken2, some tag, rest)
    | none =>
      if atLineEnd after then some (taken2, none, after)
      else descScan taken2 rem R

/-- Try the description-and-tag tail with exactly `w` characters consumed
by the greedy `\s*`. -/
def tailAt (s : List Char) (w : Nat) :
    Option (List Char × Option (List Char) × List Char) :=
  let q := s.drop w
  descScan [] (q.takeWhile (fun c => !(c = '\n'))) (q.dropWhile (fun c => !(c = '\n')))

/-- Backtracking loop for the greedy `\s*`: try the longest whitespace
prefix first, then shorter and shorter ones down to the empty prefix. -/
def wsScan (s : List Char) : Nat → Option (List Char × Option (List Char) × List Char)
  | 0 => tailAt s 0
  | w + 1 =>
    match tailAt s (w + 1) with
    | some r => some r
    | none => wsScan s w

/-- Match `\s*(.+?)(?:\s+\[(\w+)\])?$` at `s` (the text after the colon). -/
def matchTail (s : List Char) : Option (List Char × Option (List Char) × List Char) :=
  wsScan s (s.takeWhile isPySpace).length

/-- Consume the given literal characters from the front of the input. -/
def expectChars : List Char → List Char → Option (List Char)
  | [], s => some s
  | _ :: _, [] => none
  | c :: cs, x :: s => if x = c then expectChars cs s else none

/-- The checkbox class `([ x])`: a space or an `x`. -/
def checkboxOf : List Char → Option (Bool × List Char)
  | x :: r =>
    if x = ' ' then some (false, r) else if x = 'x' then some (true, r) else none
  | [] => none

/-- Greedy `\w+` followed by the literal `stop`.  Deterministic (see the
module docstring): the full maximal word run must be followed by `stop`. -/
def wordRunThen (stop : Char) (s : List Char) : Option (List Char × List Char) :=
  let w := s.takeWhile isWordChar
  if w.isEmpty then none
  else
    match s.dropWhile isWordChar with
    | x :: r => if x = stop then some (w, r) else none
    | [] => none

/-- Greedy `\d+` followed by the literal `stop`; deterministic as above. -/
def digitRunThen (stop : Char) (s : List Char) : Option (List Char × List Char) :=
  let w := s.takeWhile isDigitChar
  if w.isEmpty then none
  else
    match s.dropWhile isDigitChar with
    | x :: r => if x = stop then some (w, r) else none
    | [] => none

/-- Attempt the whole task-line pattern at the front of `s`.  On success
returns the raw match and the rest of the input after the match. -/
def matchAt (s : List Char) : Option (RawMatch × List Char) :=
  match expectChars ['-', ' ', '['] s with
  | none => none
  | some s1 =>
  match checkboxOf s1 with
  | none => none
  | some (chk, s2) =>
  match expectChars [']', ' ', 'T', 'A', 'S', 'K', '-'] s2 with
  | none => none
  | some s3 =>
  match wordRunThen '-' s3 with
  | none => none
  | some (prd, s4) =>
  match digitRunThen ':' s4 with
  | none => none
  | some (num, s5) =>
  match matchTail s5 with
  | none => none
  | some (d, tag, rest) => some (⟨chk, prd, num, d, tag⟩, rest)

/-- The `finditer` scan: try the pattern at every position from left to
right; after a successful (never empty) match continue right after it.
The fuel argument bounds the number of steps; every step either consumes
at least one character or stops, so `s.length` steps always suffice. -/
def scanAux : Nat → List Char → List RawMatch
  | 0, _ => []
  | _, [] => []
  | fuel + 1, c :: s' =>
    match matchAt (c :: s') with
    | some (r, rest) => r :: scanAux fuel rest
    | none => scanAux fuel s'

/-- All raw matches of the task-line pattern in `content`, in order. -/
def rawMatches (content : String) : List RawMatch :=
  scanAux content.data.length content.data

/-- Python's `str.strip()`: remove leading and trailing whitespace. -/
def pyStrip (l : List Char) : List Char :=
  ((l.dropWhile isPySpace).reverse.dropWhile isPySpace).reverse

/-- Python's slice `s[:n]`: the first `n` characters of `s`. -/
def pyTake (s : String) (n : Nat) : String := String.mk (s.data.take n)

/-- One parsed task record, as built in `parse_task_file`. -/
structure Task where
  id : String
  prd_id : String
  description : String
  status : String
  file : String
deriving Repr, DecidableEq

/-- Status derivation of `parse_task_file`:
`status = match.group(5) or ('done' if checked else 'pending')`.
Group 5 is `\w+`, hence never empty, so Python's `or` is exactly the
default on `None`. -/
def statusOf (checked : Bool) (tag : Option (List Char)) : String :=
  match tag with
  | some t => String.mk t
  | none => if checked then "done" else "pending"

/-- Build the task dictionary appended for one regex match. -/
def mkTask (fileName : String) (r : RawMatch) : Task :=
  { id := "TASK-" ++ String.mk r.prd ++ "-" ++ String.mk r.num
    prd_id := String.mk r.prd
    description := String.mk (pyStrip r.descRaw)
    status := statusOf r.checked r.tag
    file := fileName }

/-- Model of `parse_task_file`: every regex match in the file's text, in
scan order, turned into a task record. -/
def parse_task_file (fileName : String) (content : String) : List Task :=
  (rawMatches content).map (mkTask fileName)

/-- The filesystem as seen by the script: the two subdirectories of the
root state directory.  `none` models a missing subdirectory; a present
directory is its list of entries in (unspecified) listing order —
`(name, contents)` for `tasks/`, names only for `prds/`. -/
structure ProjectDir where
  tasksDir : Option (List (String × String))
  prdsDir : Option (List String)

/-- Does `name` match the glob `pre*suf` (e.g. `TASKS-*.md`)?  The `*`
matches any (possibly empty) run of characters, so the name must be long
enough for the two literal pieces not to overlap. -/
def globMatch (pre suf name : String) : Bool :=
  decide (pre.data.length + suf.data.length ≤ name.data.length) &&
    name.data.take pre.data.length == pre.data &&
    name.data.drop (name.data.length - suf.data.length) == suf.data

/-- Model of `find_task_files`: `[]` when `tasks/` is missing, otherwise
the entries matching `TASKS-*.md`. -/
def find_task_files (d : ProjectDir) : List (String × String) :=
  match d.tasksDir with
  | none => []
  | some entries => entries.filter (fun e => globMatch "TASKS-" ".md" e.1)

/-- Model of `find_prd_files`: `[]` when `prds/` is missing, otherwise
the names matching `PRD-*.md`. -/
def find_prd_files (d : ProjectDir) : List String :=
  match d.prdsDir with
  | none => []
  | some names => names.filter (fun n => globMatch "PRD-" ".md" n)

/-- Round to the nearest integer, ties to even — the tie rule of Python's
built-in `round`. -/
def roundHalfEven (q : ℚ) : ℤ :=
  if q - ⌊q⌋ < 1 / 2 then ⌊q⌋
  else if (1 : ℚ) / 2 < q - ⌊q⌋ then ⌊q⌋ + 1
  else if ⌊q⌋ % 2 = 0 then ⌊q⌋ else ⌊q⌋ + 1

/-- Python's `round(x, 1)`.  The script computes `x` with float division;
here the arithmetic is carried out exactly over `ℚ` with Python's
round-half-to-even tie rule (sub-ulp float representation error, which can
shift an exact tie off the midpoint, is idealised away). -/
def pyRound1 (q : ℚ) : ℚ := (roundHalfEven (10 * q) : ℚ) / 10

/-- The summary dictionary built by `get_status_summary`. -/
structure Summary where
  total_prds : Nat
  total_tasks : Nat
  pending : Nat
  in_progress : Nat
  done : Nat
  blocked : Nat
  cancelled : Nat
  completion : ℚ
  tasks : List Task
deriving Repr, DecidableEq

/-- Number of records in `tasks` whose status is exactly `s` — the
`status_counts` defaultdict looked up at `s` (absent keys count 0). -/
def countStatus (tasks : List Task) (s : String) : Nat :=
  (tasks.filter (fun t => t.status == s)).length

/-- Model of `get_status_summary`: concatenate the parses of all
discovered task files, tally by status, and compute the completion
percentage (`0` when there are no tasks). -/
def get_status_summary (d : ProjectDir) : Summary :=
  let all_tasks := (find_task_files d).flatMap (fun e => parse_task_file e.1 e.2)
  let total_tasks := all_tasks.length
  let done_tasks := countStatus all_tasks "done"
  let completion : ℚ :=
    if 0 < total_tasks then (done_tasks : ℚ) / (total_tasks : ℚ) * 100 else 0
  { total_prds := (find_prd_files d).length
    total_tasks := total_tasks
    pending := countStatus all_tasks "pending"
    in_progress := countStatus all_tasks "in_progress"
    done := done_tasks
    blocked := countStatus all_tasks "blocked"
    cancelled := countStatus all_tasks "cancelled"
    completion := pyRound1 completion
    tasks := all_tasks }

/-- One task line of the report:
`print(f"  - {task['id']}: {task['description'][:60]}...")` — the first 60
characters of the description, always followed by `"..."`. -/
def renderTaskLine (t : Task) : String :=
  "  - " ++ t.id ++ ": " ++ pyTake t.description 60 ++ "..."

/-- Render the completion percentage with one decimal digit. -/
def formatCompletion (q : ℚ) : String :=
  toString ⌊q⌋ ++ "." ++ toString (⌊10 * q⌋ - 10 * ⌊q⌋)

/-- The "Pending Tasks" section of the report: omitted when no task is
pending; otherwise a header with the pending count, the first 10 pending
tasks, and a "... and N more" line when more than 10 are pending. -/
def pendingSection (s : Summary) : List String :=
  let pending := s.tasks.filter (fun t => t.status == "pending")
  if pending.isEmpty then []
  else
    ("\n⏳ Pending Tasks (" ++ toString pending.length ++ "):")
      :: (pending.take 10).map renderTaskLine
      ++ (if 10 < pending.length then
            ["  ... and " ++ toString (pending.length - 10) ++ " more"]
          else [])

/-- The "In Progress Tasks" section: omitted when empty, otherwise a
header with the count and all such tasks (no cap). -/
def inProgressSection (s : Summary) : List String :=
  let ip := s.tasks.filter (fun t => t.status == "in_progress")
  if ip.isEmpty then []
  else ("\n🔄 In Progress Tasks (" ++ toString ip.length ++ "):") :: ip.map renderTaskLine

/-- The "Blocked Tasks" section: omitted when empty, otherwise a header
with the count and all such tasks (no cap). -/
def blockedSection (s : Summary) : List String :=
  let b := s.tasks.filter (fun t => t.status == "blocked")
  if b.isEmpty then []
  else ("\n🚫 Blocked Tasks (" ++ toString b.length ++ "):") :: b.map renderTaskLine

/-- Horizontal rule of the report. -/
def ruleLine : String := String.mk (List.replicate 60 '=')

/-- Model of `print_status_summary`: the report as the list of strings
passed to `print`, in order. -/
def print_status_summary (s : Summary) : List String :=
  ["\n" ++ ruleLine,
   "PROJECT STATUS SUMMARY",
   ruleLine,
   "\n📋 PRDs: " ++ toString s.total_prds,
   "📝 Total Tasks: " ++ toString s.total_tasks,
   "\nStatus Breakdown:",
   "  ⏳ Pending:     " ++ toString s.pending,
   "  🔄 In Progress:  " ++ toString s.in_progress,
   "  ✅ Done:        " ++ toString s.done,
   "  🚫 Blocked:     " ++ toString s.blocked,
   "  ❌ Cancelled:   " ++ toString s.cancelled,
   "\n📊 Completion: " ++ formatCompletion s.completion ++ "%"]
  ++ pendingSection s ++ inProgressSection s ++ blockedSection s
  ++ ["\n" ++ ruleLine]

/-- One invocation of the status command on a given filesystem state:
build the summary, render the report.  The model is a pure function of the
filesystem state — the script reads files and keeps no other state. -/
def runStatusCheck (d : ProjectDir) : Summary × List String :=
  let s := get_status_summary d
  (s, print_status_summary s)

/-- Two consecutive invocations of the status command against the same
(unchanged) filesystem state. -/
def runStatusCheckTwice (d : ProjectDir) : (Summary × List String) × (Summary × List String) :=
  (runStatusCheck d, runStatusCheck d)

/-- Tasks actually listed by the report: the first 10 pending tasks, all
in-progress tasks and all blocked tasks. -/
def renderedTasks (s : Summary) : List Task :=
  (s.tasks.filter (fun t => t.status == "pending")).take 10
    ++ s.tasks.filter (fun t => t.status == "in_progress")
    ++ s.tasks.filter (fun t => t.status == "blocked")

/-- Shape demanded by the specification's matching rule, anchored at the
START of the given text: the text begins with
`- [ ] TASK-<PRD_ID>-<NUMBER>: <description>` (or `- [x] …`), with an
optional bracketed status tag before the end of the line.  This is the
task-line pattern `matchAt`, required to match at position 0. -/
def lineHasClaimedShape (line : String) : Bool :=
  (matchAt line.data).isSome

/-! ### Helper lemmas -/

/-- Rounding zero gives zero. -/
lemma pyRound1_zero : pyRound1 0 = 0 := by
  norm_num [pyRound1, roundHalfEven]

/-- Unfolding `countStatus` over a cons cell. -/
lemma countStatus_cons (t : Task) (l : List Task) (s : String) :
    countStatus (t :: l) s = (if t.status = s then 1 else 0) + countStatus l s := by
  simp only [countStatus, List.filter_cons]
  by_cases h : t.status = s
  · simp [h]; omega
  · simp [h]

/-- Is the record's status outside the five named buckets? -/
def isOtherStatus (t : Task) : Bool :=
  !(t.status == "pending") && !(t.status == "in_progress") && !(t.status == "done") &&
    !(t.status == "blocked") && !(t.status == "cancelled")

/-- Every record falls in exactly one bucket: the five named status counts
plus the count of records with any other status add up to the length. -/
lemma five_counts_add_other (l : List Task) :
    countStatus l "pending" + countStatus l "in_progress" + countStatus l "done" +
      countStatus l "blocked" + countStatus l "cancelled" +
      (l.filter isOtherStatus).length = l.length := by
  induction l with
  | nil => rfl
  | cons t l ih =>
    simp only [countStatus_cons, List.filter_cons, List.length_cons, isOtherStatus]
    by_cases h1 : t.status = "pending" <;>
      by_cases h2 : t.status = "in_progress" <;>
        by_cases h3 : t.status = "done" <;>
          by_cases h4 : t.status = "blocked" <;>
            by_cases h5 : t.status = "cancelled" <;>
              simp_all <;> omega

/-- A nonempty pending list makes the section start with its header. -/
lemma pendingSection_shape (s : Summary) :
    pendingSection s = [] ∨
      (pendingSection s).head? =
        some ("\n⏳ Pending Tasks ("
          ++ toString (s.tasks.filter (fun t => t.status == "pending")).length ++ "):") := by
  cases h : s.tasks.filter (fun t => t.status == "pending") with
  | nil => left; simp [pendingSection, h]
  | cons a l => right; simp [pendingSection, h]

/-- A nonempty in-progress list makes the section start with its header. -/
lemma inProgressSection_shape (s : Summary) :
    inProgressSection s = [] ∨
      (inProgressSection s).head? =
        some ("\n🔄 In Progress Tasks ("
          ++ toString (s.tasks.filter (fun t => t.status == "in_progress")).length ++ "):") := by
  cases h : s.tasks.filter (fun t => t.status == "in_progress") with
  | nil => left; simp [inProgressSection, h]
  | cons a l => right; simp [inProgressSection, h]

/-- A nonempty blocked list makes the section start with its header. -/
lemma blockedSection_shape (s : Summary) :
    blockedSection s = [] ∨
      (blockedSection s).head? =
        some ("\n🚫 Blocked Tasks ("
          ++ toString (s.tasks.filter (fun t => t.status == "blocked")).length ++ "):") := by
  cases h : s.tasks.filter (fun t => t.status == "blocked") with
  | nil => left; simp [blockedSection, h]
  | cons a l => right; simp [blockedSection, h]

/-- A task among the first 10 pending ones is rendered in the pending
section. -/
lemma mem_pendingSection (s : Summary) (t : Task)
    (ht : t ∈ (s.tasks.filter (fun t => t.status == "pending")).take 10) :
    renderTaskLine t ∈ pendingSection s := by
  cases hp : s.tasks.filter (fun t => t.status == "pending") with
  | nil => rw [hp] at ht; simp at ht
  | cons a l =>
    rw [hp] at ht
    simp only [pendingSection, hp, List.isEmpty_cons, Bool.false_eq_true, if_false]
    exact List.mem_cons_of_mem _ (List.mem_append_left _ (List.mem_map_of_mem _ ht))

/-- An in-progress task is rendered in the in-progress section. -/
lemma mem_inProgressSection (s : Summary) (t : Task)
    (ht : t ∈ s.tasks.filter (fun t => t.status == "in_progress")) :
    renderTaskLine t ∈ inProgressSection s := by
  cases hp : s.tasks.filter (fun t => t.status == "in_progress") with
  | nil => rw [hp] at ht; simp at ht
  | cons a l =>
    rw [hp] at ht
    simp only [inProgressSection, hp, List.isEmpty_cons, Bool.false_eq_true, if_false]
    exact List.mem_cons_of_mem _ (List.mem_map_of_mem _ ht)

/-- A blocked task is rendered in the blocked section. -/
lemma mem_blockedSection (s : Summary) (t : Task)
    (ht : t ∈ s.tasks.filter (fun t => t.status == "blocked")) :
    renderTaskLine t ∈ blockedSection s := by
  cases hp : s.tasks.filter (fun t => t.status == "blocked") with
  | nil => rw [hp] at ht; simp at ht
  | cons a l =>
    rw [hp] at ht
    simp only [blockedSection, hp, List.isEmpty_cons, Bool.false_eq_true, if_false]
    exact List.mem_cons_of_mem _ (List.mem_map_of_mem _ ht)

/-- The empty input matches nothing. -/
lemma matchAt_nil : matchAt [] = none := rfl

/-- The scan produces no record exactly when the pattern matches at no
position of the input (given enough fuel, which `rawMatches` supplies). -/
lemma scanAux_eq_nil_iff (fuel : Nat) (s : List Char) (h : s.length ≤ fuel) :
    scanAux fuel s = [] ↔ ∀ i, matchAt (s.drop i) = none := by
  induction fuel generalizing s with
  | zero =>
    have hs : s = [] := List.length_eq_zero.mp (Nat.le_zero.mp h)
    subst hs
    simp [scanAux, List.drop_nil, matchAt_nil]
  | succ fuel ih =>
    cases s with
    | nil => simp [scanAux, List.drop_nil, matchAt_nil]
    | cons c s' =>
      have h' : s'.length ≤ fuel := by
        simp only [List.length_cons] at h; omega
      cases hm : matchAt (c :: s') with
      | some rr =>
        obtain ⟨r, rest⟩ := rr
        simp only [scanAux, hm]
        constructor
        · intro habs; exact absurd habs (List.cons_ne_nil _ _)
        · intro hall
          have h0 := hall 0
          rw [List.drop_zero, hm] at h0
          exact absurd h0 (by simp)
      | none =>
        simp only [scanAux, hm]
        rw [ih s' h']
        constructor
        · intro hall i
          cases i with
          | zero => simpa using hm
          | succ n => rw [List.drop_succ_cons]; exact hall n
        · intro hall i
          have hi := hall (i + 1)
          rwa [List.drop_succ_cons] at hi

/-! ### Claims -/

/-- C1: for every matched task line, the derived status is the bracketed
trailing tag verbatim when one is present (any word token), otherwise
`"done"` when the checkbox is marked `x`, and `"pending"` when the
checkbox is unmarked. -/
theorem c1_status_derivation (fileName content : String) (t : Task)
    (ht : t ∈ parse_task_file fileName content) :
    ∃ r ∈ rawMatches content, t = mkTask fileName r ∧
      (∀ tg, r.tag = some tg → t.status = String.mk tg) ∧
      (r.tag = none → r.checked = true → t.status = "done") ∧
      (r.tag = none → r.checked = false → t.status = "pending") := by
  rcases List.mem_map.mp ht with ⟨r, hr, rfl⟩
  refine ⟨r, hr, rfl, ?_, ?_, ?_⟩
  · intro tg htg; simp [mkTask, statusOf, htg]
  · intro h hc; simp [mkTask, statusOf, h, hc]
  · intro h hc; simp [mkTask, statusOf, h, hc]

/-- Witness for C1 at the concrete line `- [x] TASK-A-1: hi` (checkbox
marked, no tag, status `"done"`). -/
theorem c1_status_derivation_witness :
    ∃ r ∈ rawMatches "- [x] TASK-A-1: hi",
      ({ id := "TASK-A-1", prd_id := "A", description := "hi", status := "done",
         file := "f" } : Task) = mkTask "f" r := by
  obtain ⟨r, hr, he, -⟩ := c1_status_derivation "f" "- [x] TASK-A-1: hi"
    { id := "TASK-A-1", prd_id := "A", description := "hi", status := "done", file := "f" }
    (by decide)
  exact ⟨r, hr, he⟩

/-- Case split underlying the completion formula. -/
lemma completion_eq (n dn : Nat) :
    pyRound1 (if 0 < n then (dn : ℚ) / (n : ℚ) * 100 else 0) =
      if n = 0 then 0 else pyRound1 ((dn : ℚ) / (n : ℚ) * 100) := by
  rcases Nat.eq_zero_or_pos n with h | h
  · simp [h, pyRound1_zero]
  · simp [h, Nat.pos_iff_ne_zero.mp h]

/-- C3: the summary's completion percentage is
`done / total * 100` rounded to one decimal place when `total > 0`,
and `0` when `total = 0`. -/
theorem c3_completion_formula (d : ProjectDir) :
    (get_status_summary d).completion =
      if (get_status_summary d).total_tasks = 0 then 0
      else pyRound1 (((get_status_summary d).done : ℚ)
        / ((get_status_summary d).total_tasks : ℚ) * 100) :=
  completion_eq
    ((find_task_files d).flatMap (fun e => parse_task_file e.1 e.2)).length
    (countStatus ((find_task_files d).flatMap (fun e => parse_task_file e.1 e.2)) "done")

/-- C7: a missing `tasks/` (or `prds/`) subdirectory yields an empty file
list rather than an error; and a missing `tasks/` directory together with
a `prds/` directory holding one `PRD-*.md` file yields `total_prds = 1`,
`total_tasks = 0`, `completion = 0`. -/
theorem c7_missing_subdirs (d : ProjectDir) :
    (d.tasksDir = none → find_task_files d = []) ∧
    (d.prdsDir = none → find_prd_files d = []) ∧
    (∀ name : String, d.tasksDir = none → d.prdsDir = some [name] →
      globMatch "PRD-" ".md" name = true →
      (get_status_summary d).total_prds = 1 ∧
      (get_status_summary d).total_tasks = 0 ∧
      (get_status_summary d).completion = 0) := by
  refine ⟨?_, ?_, ?_⟩
  · intro h; simp [find_task_files, h]
  · intro h; simp [find_prd_files, h]
  · intro name ht hp hg
    refine ⟨?_, ?_, ?_⟩ <;>
      simp [get_status_summary, find_task_files, find_prd_files, ht, hp, hg,
        pyRound1_zero]

/-- Witness for C7: empty `tasks/` directory entry, one PRD file. -/
theorem c7_missing_subdirs_witness :
    (get_status_summary ⟨none, some ["PRD-x.md"]⟩).total_prds = 1 ∧
    (get_status_summary ⟨none, some ["PRD-x.md"]⟩).total_tasks = 0 ∧
    (get_status_summary ⟨none, some ["PRD-x.md"]⟩).completion = 0 :=
  (c7_missing_subdirs ⟨none, some ["PRD-x.md"]⟩).2.2 "PRD-x.md" rfl rfl (by decide)

/-- C8: running the aggregation twice over the same filesystem state with
unchanged contents yields identical summaries and identical reports — the
whole run is a pure function of the discovered files' contents, with no
state carried between runs. -/
theorem c8_two_runs_identical (d : ProjectDir) :
    (runStatusCheckTwice d).1 = (runStatusCheckTwice d).2 := rfl

/-- C4: with more than 10 pending tasks, the rendered "Pending Tasks"
section is exactly the header, the first 10 pending tasks, and a
`... and N more` line with `N = pending − 10`; with no pending task the
section is omitted entirely. -/
theorem c4_pending_pagination (s : Summary)
    (h : 10 < (s.tasks.filter (fun t => t.status == "pending")).length) :
    pendingSection s =
      ("\n⏳ Pending Tasks ("
          ++ toString (s.tasks.filter (fun t => t.status == "pending")).length ++ "):")
        :: ((s.tasks.filter (fun t => t.status == "pending")).take 10).map renderTaskLine
        ++ ["  ... and "
             ++ toString ((s.tasks.filter (fun t => t.status == "pending")).length - 10)
             ++ " more"] ∧
    (∀ s2 : Summary, s2.tasks.filter (fun t => t.status == "pending") = [] →
      pendingSection s2 = []) := by
  constructor
  · have hne : s.tasks.filter (fun t => t.status == "pending") ≠ [] := by
      intro he; rw [he] at h; simp at h
    simp [pendingSection, List.isEmpty_eq_false.mpr hne, h]
  · intro s2 h2; simp [pendingSection, h2]

/-- A summary with 15 identical pending tasks, for the pagination law. -/
def sampleSummary15 : Summary :=
  { total_prds := 0, total_tasks := 15, pending := 15, in_progress := 0, done := 0,
    blocked := 0, cancelled := 0, completion := 0,
    tasks := List.replicate 15
      { id := "TASK-A-1", prd_id := "A", description := "d", status := "pending",
        file := "f" } }

/-- Witness for C4: 15 pending tasks render as the first 10 plus a
"... and 5 more" line. -/
theorem c4_pending_pagination_witness :
    pendingSection sampleSummary15 =
      "\n⏳ Pending Tasks (15):"
        :: List.replicate 10 "  - TASK-A-1: d..."
        ++ ["  ... and 5 more"] := by
  rw [(c4_pending_pagination sampleSummary15 (by decide)).1]
  decide

/-- C5: every task rendered in the "Pending Tasks", "In Progress Tasks" or
"Blocked Tasks" sections is printed as at most the first 60 characters of
its description always followed by the ellipsis marker `"..."`, regardless
of the description's length. -/
theorem c5_truncation (s : Summary) (t : Task) (ht : t ∈ renderedTasks s) :
    renderTaskLine t = "  - " ++ t.id ++ ": " ++ pyTake t.description 60 ++ "..." ∧
    (pyTake t.description 60).data = t.description.data.take 60 ∧
    (pyTake t.description 60).length ≤ 60 ∧
    renderTaskLine t ∈ pendingSection s ++ inProgressSection s ++ blockedSection s := by
  refine ⟨rfl, rfl, ?_, ?_⟩
  · have hlen : (pyTake t.description 60).length = min 60 t.description.data.length :=
      List.length_take 60 t.description.data
    rw [hlen]
    exact min_le_left 60 _
  · rcases List.mem_append.mp ht with h | hb
    · rcases List.mem_append.mp h with hp | hi
      · exact List.mem_append_left _ (List.mem_append_left _ (mem_pendingSection s t hp))
      · exact List.mem_append_left _ (List.mem_append_right _ (mem_inProgressSection s t hi))
    · exact List.mem_append_right _ (mem_blockedSection s t hb)

/-- A summary with one pending task whose description is 70 characters. -/
def sampleSummaryLong : Summary :=
  { total_prds := 0, total_tasks := 1, pending := 1, in_progress := 0, done := 0,
    blocked := 0, cancelled := 0, completion := 0,
    tasks := [{ id := "TASK-L-1", prd_id := "L",
                description := String.mk (List.replicate 70 'a'),
                status := "pending", file := "f" }] }

/-- Witness for C5 at a 70-character description. -/
theorem c5_truncation_witness :
    (pyTake (String.mk (List.replicate 70 'a')) 60).length ≤ 60 :=
  (c5_truncation sampleSummaryLong
    { id := "TASK-L-1", prd_id := "L", description := String.mk (List.replicate 70 'a'),
      status := "pending", file := "f" } (by decide)).2.2.1

/-- C6: the five named summary fields count exactly the records with that
literal status; a record with any other status is counted in
`total_tasks` but in none of the five named fields, so the five named
counts plus the count of other-status records equals `total_tasks`, and
in particular the sum of the five named counts is at most `total_tasks`. -/
theorem c6_five_buckets (d : ProjectDir) :
    (get_status_summary d).pending = countStatus (get_status_summary d).tasks "pending" ∧
    (get_status_summary d).in_progress =
      countStatus (get_status_summary d).tasks "in_progress" ∧
    (get_status_summary d).done = countStatus (get_status_summary d).tasks "done" ∧
    (get_status_summary d).blocked = countStatus (get_status_summary d).tasks "blocked" ∧
    (get_status_summary d).cancelled =
      countStatus (get_status_summary d).tasks "cancelled" ∧
    (get_status_summary d).pending + (get_status_summary d).in_progress +
        (get_status_summary d).done + (get_status_summary d).blocked +
        (get_status_summary d).cancelled +
        ((get_status_summary d).tasks.filter isOtherStatus).length =
      (get_status_summary d).total_tasks ∧
    (get_status_summary d).pending + (get_status_summary d).in_progress +
        (get_status_summary d).done + (get_status_summary d).blocked +
        (get_status_summary d).cancelled ≤ (get_status_summary d).total_tasks := by
  have h := five_counts_add_other (get_status_summary d).tasks
  exact ⟨rfl, rfl, rfl, rfl, rfl, h, Nat.le.intro h⟩

/-- C9: in every summary produced, `total_tasks` is the length of the
stored task list, each named count is the number of stored records with
exactly that status, and each rendered section header's count agrees with
the corresponding stored records. -/
theorem c9_summary_invariant (d : ProjectDir) :
    (get_status_summary d).total_tasks = (get_status_summary d).tasks.length ∧
    (get_status_summary d).pending = countStatus (get_status_summary d).tasks "pending" ∧
    (get_status_summary d).in_progress =
      countStatus (get_status_summary d).tasks "in_progress" ∧
    (get_status_summary d).done = countStatus (get_status_summary d).tasks "done" ∧
    (get_status_summary d).blocked = countStatus (get_status_summary d).tasks "blocked" ∧
    (get_status_summary d).cancelled =
      countStatus (get_status_summary d).tasks "cancelled" ∧
    (pendingSection (get_status_summary d) = [] ∨
      (pendingSection (get_status_summary d)).head? =
        some ("\n⏳ Pending Tasks ("
          ++ toString (get_status_summary d).pending ++ "):")) ∧
    (inProgressSection (get_status_summary d) = [] ∨
      (inProgressSection (get_status_summary d)).head? =
        some ("\n🔄 In Progress Tasks ("
          ++ toString (get_status_summary d).in_progress ++ "):")) ∧
    (blockedSection (get_status_summary d) = [] ∨
      (blockedSection (get_status_summary d)).head? =
        some ("\n🚫 Blocked Tasks ("
          ++ toString (get_status_summary d).blocked ++ "):")) :=
  ⟨rfl, rfl, rfl, rfl, rfl, rfl,
    pendingSection_shape _, inProgressSection_shape _, blockedSection_shape _⟩

/-- C2 counterexample: the single line `x- [ ] TASK-A-1: d` does not have
the claimed shape (the pattern does not match at the start of the line:
the line begins with `x`, not `- [`), yet parsing the line yields one task
record — the scan is not anchored at the beginning of the line. -/
theorem c2_counterexample :
    lineHasClaimedShape "x- [ ] TASK-A-1: d" = false ∧
    parse_task_file "f" "x- [ ] TASK-A-1: d" =
      [{ id := "TASK-A-1", prd_id := "A", description := "d", status := "pending",
         file := "f" }] := by
  constructor
  · decide
  · decide

/-- C2 amended: the parser yields at least one task record exactly when
the task-line pattern matches at SOME position of the input (the match is
anchored to the end of a line by `$`, but not to the start of a line);
text in which the pattern matches at no position is silently skipped and
contributes no record. -/
theorem c2_match_somewhere (fileName content : String) :
    parse_task_file fileName content ≠ [] ↔
      ∃ i, (matchAt (content.data.drop i)).isSome := by
  rw [Ne, parse_task_file, List.map_eq_nil_iff, rawMatches,
    scanAux_eq_nil_iff content.data.length content.data le_rfl]
  constructor
  · intro hne
    push_neg at hne
    obtain ⟨i, hi⟩ := hne
    exact ⟨i, Option.isSome_iff_ne_none.mpr hi⟩
  · rintro ⟨i, hi⟩ hall
    rw [hall i] at hi
    exact absurd hi (by simp)

/-- Witness for C2's amended statement: a line of the documented shape
yields a record, and the pattern indeed matches at position 0. -/
theorem c2_match_somewhere_witness :
    parse_task_file "f" "- [ ] TASK-A-1: d" ≠ [] :=
  (c2_match_somewhere "f" "- [ ] TASK-A-1: d").mpr ⟨0, by decide⟩

/-! ### Lemmas about the matcher on structured input, for C10 -/

/-- Taking while a predicate holds on the whole list keeps the list. -/
lemma takeWhile_all {p : Char → Bool} {l : List Char} (h : ∀ ch ∈ l, p ch = true) :
    l.takeWhile p = l := by
  induction l with
  | nil => rfl
  | cons a l ih =>
    rw [List.takeWhile_cons, if_pos (h a (List.mem_cons_self a l)),
      ih fun ch hch => h ch (List.mem_cons_of_mem a hch)]

/-- Taking while the predicate holds on all of `l` walks through `l`. -/
lemma takeWhile_append_all {p : Char → Bool} {l : List Char} (r : List Char)
    (h : ∀ ch ∈ l, p ch = true) :
    (l ++ r).takeWhile p = l ++ r.takeWhile p := by
  induction l with
  | nil => simp
  | cons a l ih =>
    rw [List.cons_append, List.takeWhile_cons, if_pos (h a (List.mem_cons_self a l)),
      ih fun ch hch => h ch (List.mem_cons_of_mem a hch), List.cons_append]

/-- Dropping while the predicate holds on all of `l` removes `l`. -/
lemma dropWhile_append_all {p : Char → Bool} {l : List Char} (r : List Char)
    (h : ∀ ch ∈ l, p ch = true) :
    (l ++ r).dropWhile p = r.dropWhile p := by
  induction l with
  | nil => simp
  | cons a l ih =>
    rw [List.cons_append, List.dropWhile_cons, if_pos (h a (List.mem_cons_self a l)),
      ih fun ch hch => h ch (List.mem_cons_of_mem a hch)]

/-- A maximal run: take-while stops exactly at the first failing char. -/
lemma takeWhile_append_stop {p : Char → Bool} {l : List Char} (x : Char) (r : List Char)
    (h : ∀ ch ∈ l, p ch = true) (hx : p x = false) :
    (l ++ x :: r).takeWhile p = l := by
  rw [takeWhile_append_all _ h, List.takeWhile_cons, hx]
  simp

/-- A maximal run: drop-while stops exactly at the first failing char. -/
lemma dropWhile_append_stop {p : Char → Bool} {l : List Char} (x : Char) (r : List Char)
    (h : ∀ ch ∈ l, p ch = true) (hx : p x = false) :
    (l ++ x :: r).dropWhile p = x :: r := by
  rw [dropWhile_append_all _ h, List.dropWhile_cons, hx]
  simp

/-- Consuming the literal opener. -/
lemma expectChars_open (rest : List Char) :
    expectChars ['-', ' ', '['] ('-' :: ' ' :: '[' :: rest) = some rest := rfl

/-- Consuming the literal `] TASK-`. -/
lemma expectChars_close (rest : List Char) :
    expectChars [']', ' ', 'T', 'A', 'S', 'K', '-']
      (']' :: ' ' :: 'T' :: 'A' :: 'S' :: 'K' :: '-' :: rest) = some rest := rfl

/-- An unmarked checkbox. -/
lemma checkboxOf_space (r : List Char) : checkboxOf (' ' :: r) = some (false, r) := rfl

/-- A marked checkbox. -/
lemma checkboxOf_x (r : List Char) : checkboxOf ('x' :: r) = some (true, r) := rfl

/-- The greedy `\w+` captures exactly a maximal nonempty word run followed
by the stop character. -/
lemma wordRunThen_eq (stop : Char) (w rest : List Char)
    (hw : w ≠ []) (hall : ∀ ch ∈ w, isWordChar ch = true)
    (hstop : isWordChar stop = false) :
    wordRunThen stop (w ++ stop :: rest) = some (w, rest) := by
  simp only [wordRunThen, takeWhile_append_stop stop rest hall hstop,
    dropWhile_append_stop stop rest hall hstop, List.isEmpty_eq_false.mpr hw,
    Bool.false_eq_true, if_false]
  simp

/-- The greedy `\d+` captures exactly a maximal nonempty digit run
followed by the stop character. -/
lemma digitRunThen_eq (stop : Char) (w rest : List Char)
    (hw : w ≠ []) (hall : ∀ ch ∈ w, isDigitChar ch = true)
    (hstop : isDigitChar stop = false) :
    digitRunThen stop (w ++ stop :: rest) = some (w, rest) := by
  simp only [digitRunThen, takeWhile_append_stop stop rest hall hstop,
    dropWhile_append_stop stop rest hall hstop, List.isEmpty_eq_false.mpr hw,
    Bool.false_eq_true, if_false]
  simp

/-- The trailing tag group fails on text consisting only of newlines. -/
lemma tryGroup_all_newlines (m : List Char) (hm : ∀ ch ∈ m, ch = '\n') :
    tryGroup m = none := by
  cases m with
  | nil => rfl
  | cons a ms =>
    have ha : a = '\n' := hm a (List.mem_cons_self a ms)
    subst ha
    have hall : ∀ ch ∈ ('\n' :: ms), isPySpace ch = true := fun ch hch => by
      rw [hm ch hch]; decide
    simp [tryGroup, takeWhile_all hall, List.drop_length]

/-- Newline-only text is at a line end. -/
lemma atLineEnd_all_newlines (v : List Char) (hv : ∀ ch ∈ v, ch = '\n') :
    atLineEnd v = true := by
  cases v with
  | nil => rfl
  | cons a vs => simp [atLineEnd, hv a (List.mem_cons_self a vs)]

/-- With a single character before newline-only text, the lazy description
is that character, no tag is found, and the match ends before the
newlines. -/
lemma descScan_single (c0 : Char) (v : List Char) (hv : ∀ ch ∈ v, ch = '\n') :
    descScan [] [c0] v = some ([c0], none, v) := by
  simp only [descScan, List.nil_append, tryGroup_all_newlines v hv,
    atLineEnd_all_newlines v hv, if_true]

/-- Trying the tail at the last non-newline character succeeds with a
one-character description. -/
lemma tailAt_last (u : List Char) (c0 : Char) (v : List Char)
    (hc0 : ¬(c0 = '\n')) (hv : ∀ ch ∈ v, ch = '\n') :
    tailAt (u ++ c0 :: v) u.length = some ([c0], none, v) := by
  simp only [tailAt, List.drop_left]
  have h1 : (c0 :: v).takeWhile (fun c => !(c = '\n')) = [c0] := by
    cases v with
    | nil => simp [List.takeWhile_cons, hc0]
    | cons a vs =>
      simp [List.takeWhile_cons, hc0, hv a (List.mem_cons_self a vs)]
  have h2 : (c0 :: v).dropWhile (fun c => !(c = '\n')) = v := by
    cases v with
    | nil => simp [List.dropWhile_cons, hc0]
    | cons a vs =>
      simp [List.dropWhile_cons, hc0, hv a (List.mem_cons_self a vs)]
  rw [h1, h2]
  exact descScan_single c0 v hv

/-- Trying the tail strictly after the last non-newline character fails:
no description character remains on the line. -/
lemma tailAt_none_after (u : List Char) (c0 : Char) (v : List Char) (k : Nat)
    (hv : ∀ ch ∈ v, ch = '\n') :
    tailAt (u ++ c0 :: v) (u.length + 1 + k) = none := by
  have hdrop : (u ++ c0 :: v).drop (u.length + 1 + k) = v.drop k := by
    have hr : u ++ c0 :: v = (u ++ [c0]) ++ v := by simp
    have hlen : (u ++ [c0]).length = u.length + 1 := by simp
    rw [hr, ← hlen, List.drop_append]
  simp only [tailAt, hdrop]
  have hvk : ∀ ch ∈ v.drop k, ch = '\n' :=
    fun ch hch => hv ch (List.drop_subset k v hch)
  cases hvd : v.drop k with
  | nil => rfl
  | cons a vs =>
    have ha : a = '\n' := hvk a (hvd ▸ List.mem_cons_self a vs)
    simp [List.takeWhile_cons, ha, descScan]

/-- When the tail attempt at `n` succeeds, the whitespace backtracking
loop started at `n` returns that result. -/
lemma wsScan_hits (s : List Char) (n : Nat)
    (r : List Char × Option (List Char) × List Char)
    (h : tailAt s n = some r) : wsScan s n = some r := by
  cases n with
  | zero => simpa [wsScan] using h
  | succ m => simp [wsScan, h]

/-- The whitespace backtracking loop skips positions at which the tail
attempt fails. -/
lemma wsScan_descend (s : List Char) (n k : Nat)
    (hnone : ∀ j, n < j → tailAt s j = none) :
    wsScan s (n + k) = wsScan s n := by
  induction k with
  | zero => rfl
  | succ m ih =>
    show wsScan s ((n + m) + 1) = wsScan s n
    simp only [wsScan]
    rw [hnone (n + m + 1) (by omega)]
    exact ih

/-- The full tail match on text that is all whitespace with a last
non-newline character `c0`: the description is exactly `[c0]`, there is no
tag, and the newline suffix remains unconsumed. -/
lemma matchTail_ws (u : List Char) (c0 : Char) (v : List Char)
    (hu : ∀ ch ∈ u, isPySpace ch = true)
    (hc0s : isPySpace c0 = true) (hc0n : ¬(c0 = '\n'))
    (hv : ∀ ch ∈ v, ch = '\n') :
    matchTail (u ++ c0 :: v) = some ([c0], none, v) := by
  have hall : ∀ ch ∈ (u ++ c0 :: v), isPySpace ch = true := by
    intro ch hch
    rcases List.mem_append.mp hch with h | h
    · exact hu ch h
    · rcases List.mem_cons.mp h with rfl | h
      · exact hc0s
      · rw [hv ch h]; decide
  have hnone : ∀ j, u.length < j → tailAt (u ++ c0 :: v) j = none := by
    intro j hj
    obtain ⟨k, rfl⟩ : ∃ k, j = u.length + 1 + k := ⟨j - u.length - 1, by omega⟩
    exact tailAt_none_after u c0 v k hv
  have hlen : ((u ++ c0 :: v).takeWhile isPySpace).length =
      u.length + (v.length + 1) := by
    rw [takeWhile_all hall]
    simp [List.length_append]
  rw [matchTail, hlen, wsScan_descend (u ++ c0 :: v) u.length (v.length + 1) hnone]
  exact wsScan_hits _ _ _ (tailAt_last u c0 v hc0n hv)

/-- A full match of the task-line pattern on a line whose text after the
colon is whitespace with last non-newline character `c0`. -/
lemma matchAt_task_line (c c0 : Char) (prd num u v : List Char)
    (hc : c = ' ' ∨ c = 'x')
    (hprdne : prd ≠ []) (hprdall : ∀ ch ∈ prd, isWordChar ch = true)
    (hnumne : num ≠ []) (hnumall : ∀ ch ∈ num, isDigitChar ch = true)
    (hu : ∀ ch ∈ u, isPySpace ch = true)
    (hc0s : isPySpace c0 = true) (hc0n : ¬(c0 = '\n'))
    (hv : ∀ ch ∈ v, ch = '\n') :
    matchAt ('-' :: ' ' :: '[' :: c :: ']' :: ' ' :: 'T' :: 'A' :: 'S' :: 'K' :: '-' ::
        (prd ++ '-' :: (num ++ ':' :: (u ++ c0 :: v)))) =
      some (⟨c == 'x', prd, num, [c0], none⟩, v) := by
  rcases hc with rfl | rfl
  · simp only [matchAt, expectChars_open, checkboxOf_space, expectChars_close,
      wordRunThen_eq '-' prd _ hprdne hprdall (by decide),
      digitRunThen_eq ':' num _ hnumne hnumall (by decide),
      matchTail_ws u c0 v hu hc0s hc0n hv]
    rfl
  · simp only [matchAt, expectChars_open, checkboxOf_x, expectChars_close,
      wordRunThen_eq '-' prd _ hprdne hprdall (by decide),
      digitRunThen_eq ':' num _ hnumne hnumall (by decide),
      matchTail_ws u c0 v hu hc0s hc0n hv]
    rfl

/-- The scan finds no match in newline-only text. -/
lemma scanAux_all_newlines (fuel : Nat) (v : List Char)
    (hv : ∀ ch ∈ v, ch = '\n') : scanAux fuel v = [] := by
  induction fuel generalizing v with
  | zero => cases v <;> rfl
  | succ fuel ih =>
    cases v with
    | nil => rfl
    | cons a vs =>
      have ha : a = '\n' := hv a (List.mem_cons_self a vs)
      subst ha
      have hm : matchAt ('\n' :: vs) = none := rfl
      simp only [scanAux, hm]
      exact ih vs fun ch hch => hv ch (List.mem_cons_of_mem _ hch)

/-- Scanning one successful match from the head position. -/
lemma scanAux_cons_match (fuel : Nat) (c : Char) (s' : List Char)
    (r : RawMatch) (rest : List Char) (h : matchAt (c :: s') = some (r, rest)) :
    scanAux (fuel + 1) (c :: s') = r :: scanAux fuel rest := by
  simp [scanAux, h]

/-- C10: a task line whose text after the colon consists only of
whitespace (with at least one non-newline whitespace character, e.g.
`- [ ] TASK-A-1:  `) still matches and yields a single task record whose
description is the empty string — the parser does not require a non-empty
description after trimming.  (Stated for such a line as the whole input;
`u ++ c0 :: v` is the post-colon whitespace, `v` its trailing-newline
part.) -/
theorem c10_whitespace_only_description (fileName content : String) (c c0 : Char)
    (prd num u v : List Char)
    (hcontent : content.data =
      '-' :: ' ' :: '[' :: c :: ']' :: ' ' :: 'T' :: 'A' :: 'S' :: 'K' :: '-' ::
        (prd ++ '-' :: (num ++ ':' :: (u ++ c0 :: v))))
    (hc : c = ' ' ∨ c = 'x')
    (hprdne : prd ≠ []) (hprdall : ∀ ch ∈ prd, isWordChar ch = true)
    (hnumne : num ≠ []) (hnumall : ∀ ch ∈ num, isDigitChar ch = true)
    (hu : ∀ ch ∈ u, isPySpace ch = true)
    (hc0s : isPySpace c0 = true) (hc0n : ¬(c0 = '\n'))
    (hv : ∀ ch ∈ v, ch = '\n') :
    parse_task_file fileName content =
      [{ id := "TASK-" ++ String.mk prd ++ "-" ++ String.mk num,
         prd_id := String.mk prd,
         description := "",
         status := if c == 'x' then "done" else "pending",
         file := fileName }] := by
  have hm := matchAt_task_line c c0 prd num u v hc hprdne hprdall hnumne hnumall
    hu hc0s hc0n hv
  have hstrip : pyStrip [c0] = [] := by
    simp [pyStrip, List.dropWhile_cons, hc0s]
  simp only [parse_task_file, rawMatches, hcontent, List.length_cons]
  rw [scanAux_cons_match _ _ _ _ _ hm, scanAux_all_newlines _ v hv]
  simp [mkTask, statusOf, hstrip]

/-- Witness for C10 at the concrete line `- [ ] TASK-A-1:  ` (two trailing
spaces): one record, empty description, status pending. -/
theorem c10_whitespace_only_description_witness :
    parse_task_file "f" "- [ ] TASK-A-1:  " =
      [{ id := "TASK-A-1", prd_id := "A", description := "", status := "pending",
         file := "f" }] := by
  rw [c10_whitespace_only_description "f" "- [ ] TASK-A-1:  " ' ' ' '
    ['A'] ['1'] [' '] [] rfl (Or.inl rfl) (by decide) (by decide) (by decide)
    (by decide) (by decide) (by decide) (by decide) (by decide)]
  rfl

end CheckStatus
